import Mathlib

attribute [local semireducible] Rat.mul Rat.inv Rat.add Rat.sub

/-!
Verification development for the narrative pattern matching and hybrid
composition engine of the ai_writers_workshop repository, together with its
project-scoped element store.

The definitions below are a shallow embedding of
`mcp_server/components/pattern_manager.py` and
`mcp_server/components/project_manager.py`:

* Python dicts are modelled as association lists with Python's
  insertion-order/overwrite-in-place semantics (`dictLookup` / `dictInsert`).
* Python floats (weights, adherence levels) are modelled as rationals, and
  Python's `round` (banker's rounding, round half to even) as `pyRound`.
* `datetime.now()` timestamps are passed in explicitly as a `now : String`
  argument.
* JSON serialisation is modelled as the identity on the record values
  (writing a record to a file and reading it back yields the same record).
* File-system state (the pattern library directory, project directories,
  legacy mirror directories) is threaded explicitly through the functions
  that mutate it.
-/

namespace AIWW

/-! ## Python-semantics helpers -/

/-- Lookup in a Python dict modelled as an association list
(first binding for the key wins; dicts built by `dictInsert` have unique keys). -/
def dictLookup {α : Type} : List (String × α) → String → Option α
  | [], _ => none
  | p :: rest, k => if p.1 = k then some p.2 else dictLookup rest k

/-- Python's `k in d` on a dict. -/
def containsKey {α : Type} (d : List (String × α)) (k : String) : Bool :=
  d.any (fun p => p.1 = k)

/-- Python dict assignment `d[k] = v`: overwrite in place if the key is
present (keeping its position), otherwise append at the end. -/
def dictInsert {α : Type} (d : List (String × α)) (k : String) (v : α) :
    List (String × α) :=
  if containsKey d k then
    d.map (fun p => if p.1 = k then (k, v) else p)
  else
    d ++ [(k, v)]

/-- ASCII lower-casing of one character (all strings handled by this
code base are ASCII, where Python's `str.lower()` agrees). -/
def lowerChar (c : Char) : Char :=
  if c.toNat ≥ 65 ∧ c.toNat ≤ 90 then Char.ofNat (c.toNat + 32) else c

/-- Python's `str.lower()`. -/
def pyToLower (s : String) : String :=
  ⟨s.data.map lowerChar⟩

/-- Python's `str.replace(pat, rep)` on character lists: non-overlapping,
left to right. The first argument is fuel, always called with the length
of the subject list (the replacement consumes at least one character per
step when the pattern is non-empty). -/
def replaceFuel (pat rep : List Char) : ℕ → List Char → List Char
  | 0, l => l
  | f + 1, l =>
    match l with
    | [] => []
    | c :: rest =>
      if pat.isPrefixOf (c :: rest) then
        rep ++ replaceFuel pat rep f ((c :: rest).drop pat.length)
      else c :: replaceFuel pat rep f rest

/-- Python's `str.replace(pat, rep)` (the patterns used by this code base
are all non-empty, so the empty-pattern case never arises). -/
def pyReplace (s pat rep : String) : String :=
  if pat = "" then s else ⟨replaceFuel pat.data rep.data s.data.length s.data⟩

/-- Contiguous-subsequence test on character lists (helper for `pyContains`). -/
def listContainsSeq : List Char → List Char → Bool
  | needle, [] => needle.isEmpty
  | needle, c :: rest => needle.isPrefixOf (c :: rest) || listContainsSeq needle rest

/-- Python's substring operator `needle in hay` on strings. -/
def pyContains (hay needle : String) : Bool :=
  listContainsSeq needle.data hay.data

/-- Splitting a character list into maximal whitespace-free words
(helper for `pySplitWhite`; the accumulator holds the current word
reversed). -/
def wordsAux : List Char → List Char → List (List Char)
  | [], acc => if acc.isEmpty then [] else [acc.reverse]
  | c :: rest, acc =>
    if c.isWhitespace then
      if acc.isEmpty then wordsAux rest [] else acc.reverse :: wordsAux rest []
    else wordsAux rest (c :: acc)

/-- Python's `str.split()` with no argument: split on whitespace runs,
dropping empty pieces. -/
def pySplitWhite (s : String) : List String :=
  (wordsAux s.data []).map (fun w => ⟨w⟩)

/-- Python's built-in `round` on a real number (modelled on ℚ):
round half to even. -/
def pyRound (q : ℚ) : ℤ :=
  let f : ℤ := ⌊q⌋
  let r : ℚ := q - (f : ℚ)
  if r < 1/2 then f
  else if 1/2 < r then f + 1
  else if f % 2 = 0 then f else f + 1

/-- Python's `x or y` for strings (`x` if non-empty, else `y`). -/
def pyOrStr (x y : String) : String :=
  if x ≠ "" then x else y

/-- `list(dict.fromkeys(l))`: deduplicate keeping the first occurrence of
each element, in order of first appearance. -/
def dedupFirst (l : List String) : List String :=
  l.foldl (fun acc x => if x ∈ acc then acc else acc ++ [x]) []

/-! ## Pattern data model (`pattern_manager.py`) -/

/-- A narrative pattern record as stored in `output/library/patterns/{id}.json`.
The three seeded defaults have no `hybrid` / `component_patterns` /
`created_at` keys; absence is modelled as `false` / `[]` / `""`. -/
structure PatternData where
  name : String
  description : String
  stages : List String
  psychologicalFunctions : List String
  examples : List String
  hybrid : Bool
  componentPatterns : List (String × ℚ)
  createdAt : String
deriving DecidableEq, Repr

/-- The seeded Hero's Journey default pattern (12 stages). -/
def heroesJourney : PatternData :=
  { name := "Hero\x27s Journey"
    description := "The classic monomyth structure identified by Joseph Campbell"
    stages := [ "Ordinary World", "Call to Adventure", "Refusal of the Call",
      "Meeting the Mentor", "Crossing the Threshold", "Tests, Allies, Enemies",
      "Approach to the Inmost Cave", "Ordeal", "Reward", "The Road Back",
      "Resurrection", "Return with the Elixir" ]
    psychologicalFunctions := [ "Self-discovery", "Integration of shadow aspects",
      "Individuation" ]
    examples := [ "Star Wars: A New Hope", "The Lord of the Rings", "The Matrix" ]
    hybrid := false
    componentPatterns := []
    createdAt := "" }

/-- The seeded Transformation default pattern (7 stages). -/
def transformationPattern : PatternData :=
  { name := "Transformation"
    description := "A pattern focused on character or societal change and growth"
    stages := [ "Status Quo", "Disruption", "Resistance", "Struggle",
      "Discovery", "Integration", "New Normal" ]
    psychologicalFunctions := [ "Personal growth", "Acceptance of change",
      "Evolution of identity" ]
    examples := [ "A Christmas Carol", "Jane Eyre", "Groundhog Day" ]
    hybrid := false
    componentPatterns := []
    createdAt := "" }

/-- The seeded Voyage and Return default pattern (5 stages). -/
def voyageAndReturn : PatternData :=
  { name := "Voyage and Return"
    description := "A journey to an unfamiliar place, followed by a return with new perspective"
    stages := [ "The Ordinary World", "The Journey Begins", "The Strange New World",
      "The Challenge", "The Return" ]
    psychologicalFunctions := [ "Expanding perspective", "Appreciating home/origins",
      "Adapting to new environments" ]
    examples := [ "The Wizard of Oz", "Alice in Wonderland", "The Hobbit" ]
    hybrid := false
    componentPatterns := []
    createdAt := "" }

/-- PatternManager state: the on-disk pattern library (keyed by file stem)
and the in-memory `self.patterns` dict. -/
structure PMState where
  disk : List (String × PatternData)
  mem : List (String × PatternData)
deriving DecidableEq, Repr

/-- State after `PatternManager.__init__` on a fresh directory:
`_load_default_patterns` writes the three defaults to disk and keeps them
in `self.patterns`. -/
def defaultPMState : PMState :=
  let ps := [ ("heroes_journey", heroesJourney),
              ("transformation", transformationPattern),
              ("voyage_and_return", voyageAndReturn) ]
  { disk := ps, mem := ps }

/-- Result of `get_pattern_details`: either the pattern dict, or the
error dict `{"error": ..., "available_patterns": [...]}`. -/
inductive PatternLookup where
  | found (p : PatternData)
  | notFound (msg : String) (available : List String)
deriving DecidableEq, Repr

/-- The error message `get_pattern_details` builds for a missing pattern. -/
def patternNotFoundMsg (patternName : String) : String :=
  "Pattern \x27" ++ patternName ++ "\x27 not found"

/-- `PatternManager.get_pattern_details`: library directory first
(file stem `pattern_name.lower()`), then the in-memory defaults dict,
else the error dict carrying `list(self.patterns.keys())`. -/
def getPatternDetails (st : PMState) (patternName : String) : PatternLookup :=
  match dictLookup st.disk (pyToLower patternName) with
  | some p => .found p
  | none =>
    match dictLookup st.mem (pyToLower patternName) with
    | some p => .found p
    | none => .notFound (patternNotFoundMsg patternName) (st.mem.map (·.1))

/-! ## Scenes and narrative analysis (`analyze_narrative`, committed version) -/

/-- A caller-supplied scene record: a dict of optional text fields. -/
structure Scene where
  title : Option String
  sceneTitle : Option String
  description : Option String
  patternStage : Option String
  conflict : Option String
  goal : Option String
  outcome : Option String
  notes : Option String
deriving DecidableEq, Repr

/-- `scene.get("title", "")` as used by the committed `analyze_narrative`. -/
def Scene.titleText (s : Scene) : String := s.title.getD ""

/-- `scene.get("description", "")`. -/
def Scene.descriptionText (s : Scene) : String := s.description.getD ""

/-- One entry of the `matched_stages` list. The committed code tags exact
matches with quality `"exact"` and keyword fallback matches with `"partial"`
(the latter also carry a `match_score`). -/
structure MatchedStage where
  stage : String
  scene : String
  matchQuality : String
  matchScore : Option ℕ
deriving DecidableEq, Repr

/-- Keyword score of a scene for a stage in the committed fallback pass:
one point per word of `stage.lower().split()` longer than 3 characters that
occurs as a substring of the lowercased title or description. -/
def keywordScore (stage : String) (sc : Scene) : ℕ :=
  ((pySplitWhite (pyToLower stage)).filter (fun w =>
    w.length > 3 &&
      (pyContains (pyToLower sc.titleText) w || pyContains (pyToLower sc.descriptionText) w))).length

/-- The committed fallback pass: best-scoring scene, strictly-greater score
wins, so the earliest scene with the maximal score is kept. -/
def bestPartialMatch (scenes : List Scene) (stage : String) : ℕ × Option Scene :=
  scenes.foldl
    (fun acc sc =>
      let s := keywordScore stage sc
      if s > acc.1 then (s, some sc) else acc)
    (0, none)

/-- Per-stage matching of the committed `analyze_narrative`: first scene
whose lowercased title or description contains the lowercased stage name is
an exact match; otherwise — only when `adherence_level < 1.0` — the keyword
fallback runs and any positive score yields a partial match; otherwise the
stage is missing (`none`). -/
def matchStage (scenes : List Scene) (adherenceLevel : ℚ) (stage : String) :
    Option MatchedStage :=
  match scenes.find? (fun sc =>
      pyContains (pyToLower sc.titleText) (pyToLower stage) ||
      pyContains (pyToLower sc.descriptionText) (pyToLower stage)) with
  | some sc => some ⟨stage, sc.titleText, "exact", none⟩
  | none =>
    if adherenceLevel < 1 then
      let best := bestPartialMatch scenes stage
      if best.1 > 0 then
        match best.2 with
        | some sc => some ⟨stage, sc.titleText, "partial", some best.1⟩
        | none => none
      else none
    else none

/-! ## Pattern creation (`create_custom_pattern`, `create_hybrid_pattern`) -/

/-- `name.lower().replace(" ", "_").replace("-", "_")`: the file stem /
dictionary key a created pattern is stored under. -/
def sanitizePatternId (name : String) : String :=
  pyReplace (pyReplace (pyToLower name) " " "_") "-" "_"

/-- Result of `create_custom_pattern`: the `{"pattern": ..., "output_path": ...}`
dict plus the mutated manager state, or the lookup error dict from
`based_on` resolution. -/
inductive CreateOutcome where
  | ok (p : PatternData) (st : PMState) (outputPath : String)
  | notFound (msg : String) (available : List String)
deriving DecidableEq, Repr

/-- `PatternManager.create_custom_pattern`. `based_on` is consulted only when
truthy (non-empty); the optional function/example lists override the base
pattern's only when truthy (Python `if psychological_functions:`). The file
and the in-memory dict entry at the derived id are written unconditionally. -/
def createCustomPattern (st : PMState) (name description : String)
    (stages : List String) (psychologicalFunctions examples : Option (List String))
    (basedOn : Option String) (now : String) : CreateOutcome :=
  let basedOnName := basedOn.getD ""
  let build : PatternLookup → CreateOutcome := fun lk =>
    match lk with
    | .notFound m a => .notFound m a
    | .found base =>
      let pf := match psychologicalFunctions with
        | some l => if l.isEmpty then base.psychologicalFunctions else l
        | none => base.psychologicalFunctions
      let ex := match examples with
        | some l => if l.isEmpty then base.examples else l
        | none => base.examples
      let pd : PatternData :=
        { base with name := name, description := description, stages := stages,
                    psychologicalFunctions := pf, examples := ex, createdAt := now }
      let pid := sanitizePatternId name
      .ok pd { disk := dictInsert st.disk pid pd, mem := dictInsert st.mem pid pd }
        ("library/patterns/" ++ pid ++ ".json")
  if basedOnName ≠ "" then
    build (getPatternDetails st basedOnName)
  else
    let pd : PatternData :=
      { name := name, description := description, stages := stages,
        psychologicalFunctions := psychologicalFunctions.getD [],
        examples := examples.getD [], hybrid := false, componentPatterns := [],
        createdAt := now }
    let pid := sanitizePatternId name
    .ok pd { disk := dictInsert st.disk pid pd, mem := dictInsert st.mem pid pd }
      ("library/patterns/" ++ pid ++ ".json")

/-- Resolve every referenced pattern of a hybrid request in dict order;
the first lookup failure is returned as the error dict (message and
available-ids list). -/
def resolvePatterns (st : PMState) :
    List (String × ℚ) → Except (String × List String) (List (String × PatternData × ℚ))
  | [] => .ok []
  | (n, w) :: rest =>
    match getPatternDetails st n with
    | .notFound m a => .error (m, a)
    | .found p =>
      match resolvePatterns st rest with
      | .error e => .error e
      | .ok r => .ok ((n, p, w) :: r)

/-- Stable insertion step for sorting by weight descending (Python
`list.sort(key=..., reverse=True)` is stable: equal weights keep their
original relative order). -/
def insertWeightDesc (x : String × PatternData × ℚ) :
    List (String × PatternData × ℚ) → List (String × PatternData × ℚ)
  | [] => [x]
  | y :: ys => if y.2.2 ≤ x.2.2 then x :: y :: ys else y :: insertWeightDesc x ys

/-- Stable sort by weight descending. -/
def sortByWeightDesc (l : List (String × PatternData × ℚ)) :
    List (String × PatternData × ℚ) :=
  l.foldr insertWeightDesc []

/-- The per-pattern stage-sampling loop of `create_hybrid_pattern`:
`num_stages = max(1, round(weight * target))`; all stages when
`num_stages >= len`, else stages at indices `int(i * (len-1) / (num-1))`.
When `num_stages = 1 < len` Python evaluates `0 / 0` and raises
`ZeroDivisionError`, modelled as `.error ()`. The `getD` default is
unreachable: each index is at most `len - 1`. -/
def sampleStages : List (String × PatternData × ℚ) → ℕ → Except Unit (List String)
  | [], _ => .ok []
  | (_, p, w) :: rest, target =>
    let n : ℤ := max 1 (pyRound (w * (target : ℚ)))
    let len := p.stages.length
    let contrib : Except Unit (List String) :=
      if (len : ℤ) ≤ n then .ok p.stages
      else if n = 1 then .error ()
      else .ok ((List.range n.toNat).map (fun i => p.stages.getD (i * (len - 1) / (n.toNat - 1)) ""))
    match contrib, sampleStages rest target with
    | .error e, _ => .error e
    | .ok _, .error e => .error e
    | .ok c, .ok r => .ok (c ++ r)

/-- Result of `create_hybrid_pattern`: success, pattern-lookup error dict,
or an escaping `ZeroDivisionError` from stage sampling. -/
inductive HybridOutcome where
  | ok (p : PatternData) (st : PMState) (outputPath : String)
  | notFound (msg : String) (available : List String)
  | divByZero
deriving DecidableEq, Repr

/-- `PatternManager.create_hybrid_pattern`. `custom_stages` is used verbatim
when truthy; otherwise stages are sampled from the components (sorted by
weight descending) against `target = min(12, total)` and the concatenation
is truncated to `target`. -/
def createHybridPattern (st : PMState) (name description : String)
    (patterns : List (String × ℚ)) (customStages : Option (List String))
    (now : String) : HybridOutcome :=
  match resolvePatterns st patterns with
  | .error (m, a) => .notFound m a
  | .ok resolved =>
    let sorted := sortByWeightDesc resolved
    let totalStages := (sorted.map (fun t => t.2.1.stages.length)).sum
    let targetStages := min 12 totalStages
    let generated : Except Unit (List String) :=
      (sampleStages sorted targetStages).map (fun l => l.take targetStages)
    let stagesE : Except Unit (List String) :=
      match customStages with
      | some cs => if cs.isEmpty then generated else .ok cs
      | none => generated
    match stagesE with
    | .error _ => .divByZero
    | .ok stages =>
      let pf := dedupFirst ((sorted.map (fun t => t.2.1.psychologicalFunctions)).flatten)
      let ex := dedupFirst ((sorted.map (fun t => t.2.1.examples.take 2)).flatten)
      let hp : PatternData :=
        { name := name, description := description, stages := stages,
          psychologicalFunctions := pf, examples := ex, hybrid := true,
          componentPatterns := sorted.map (fun t => (t.1, t.2.2)), createdAt := now }
      let pid := sanitizePatternId name
      .ok hp { disk := dictInsert st.disk pid hp, mem := dictInsert st.mem pid hp }
        ("library/patterns/" ++ pid ++ ".json")

/-- The analysis result record built by `analyze_narrative` (the
human-readable `analysis` text and the persistence path are not modelled;
no claim mentions them). -/
structure AnalysisResult where
  pattern : String
  adherenceLevel : ℚ
  requiredStages : ℤ
  matchedStages : List MatchedStage
  missingStages : List String
  matchScore : ℚ
  createdAt : String
deriving DecidableEq, Repr

/-- Outcome of `analyze_narrative`: the analysis dict, or the pattern-lookup
error dict passed through. -/
inductive AnalyzeOutcome where
  | ok (r : AnalysisResult)
  | notFound (msg : String) (available : List String)
deriving DecidableEq, Repr

/-- `PatternManager.analyze_narrative` (committed version). The per-stage
loop appends each stage to exactly one of `matched_stages` / `missing_stages`
in pattern order, which is expressed here with `filterMap` / `filter` over
the same per-stage function `matchStage`. -/
def analyzeNarrative (st : PMState) (scenes : List Scene) (patternName : String)
    (adherenceLevel : ℚ) (now : String) : AnalyzeOutcome :=
  match getPatternDetails st patternName with
  | .notFound m a => .notFound m a
  | .found p =>
    let stages := p.stages
    let required : ℤ := max 1 (pyRound ((stages.length : ℚ) * adherenceLevel))
    let matched := stages.filterMap (matchStage scenes adherenceLevel)
    let missing := stages.filter (fun s => (matchStage scenes adherenceLevel s).isNone)
    let score : ℚ :=
      if required > 0 then (matched.length : ℚ) / (required : ℚ) else 0
    .ok ⟨patternName, adherenceLevel, required, matched, missing, score, now⟩

/-! ## Project manager and element store (`project_manager.py`)

Element payloads are JSON objects; for the element-store claims their
values are opaque, so they are modelled as string-valued dicts. -/

/-- An element payload: a JSON object with opaque (string) field values. -/
abbrev ElemData := List (String × String)

/-- One entry of a project's per-type reference index
(`metadata["elements"][type]`). -/
structure ElementRef where
  id : String
  name : String
  path : String
  createdAt : String
deriving DecidableEq, Repr

/-- The slice of `metadata.json` the element store reads and writes:
the reference index and the modification stamp. The remaining scalar
fields (description, status, themes, ...) are untouched by `save_element`
and are not modelled. -/
structure Metadata where
  name : String
  elements : List (String × List ElementRef)
  modifiedAt : String
deriving DecidableEq, Repr

/-- A project directory: optional `metadata.json` plus one sub-directory of
element files per element type. -/
structure ProjectDir where
  metadata : Option Metadata
  elements : List (String × List (String × ElemData))
deriving DecidableEq, Repr

/-- The file-system state seen by `ProjectManager`: the `projects/` tree and
the flat legacy mirror directories. -/
structure StoreFS where
  projects : List (String × ProjectDir)
  legacy : List (String × List (String × ElemData))
deriving DecidableEq, Repr

/-- The element types that predate the project model and get a legacy
mirror copy (`self.legacy_dirs`). -/
def legacyTypes : List String :=
  ["characters", "scenes", "outlines", "analyses", "symbols"]

/-- `list_projects` enumerates project directories that contain a
`metadata.json` (ids only; the per-project summary fields are not needed
by any claim). -/
def availableProjects (fs : StoreFS) : List String :=
  (fs.projects.filter (fun p => p.2.metadata.isSome)).map (·.1)

/-- `ProjectManager._sanitize_name`. -/
def sanitizeName (name : String) : String :=
  pyReplace (pyReplace (pyReplace (pyReplace (pyToLower name) " " "_") "-" "_") "\x27" "") "\"" ""

/-- `element_data.get(key, "")` on a payload. -/
def payloadGet (d : ElemData) (k : String) : String :=
  (dictLookup d k).getD ""

/-- The element id derived by `save_element` when none is supplied:
sanitized `name` or `title` when one is truthy, else a timestamp-based id. -/
def deriveElementId (elementType : String) (data : ElemData) (nowStamp : String) :
    String :=
  let nm := pyOrStr (payloadGet data "name") (payloadGet data "title")
  if nm ≠ "" then sanitizeName nm else elementType ++ "_" ++ nowStamp

/-- Write one file into a directory-of-directories
(`dirs[dirName][fileName] = data`, creating the directory as needed). -/
def dirWrite (dirs : List (String × List (String × ElemData)))
    (dirName fileName : String) (data : ElemData) :
    List (String × List (String × ElemData)) :=
  dictInsert dirs dirName (dictInsert ((dictLookup dirs dirName).getD []) fileName data)

/-- `existing.update(reference)` on the first index entry with the given id
(later duplicates, if any, are left alone — `next(...)` finds only the
first). -/
def updateFirstRef (eid : String) (ref : ElementRef) :
    List ElementRef → List ElementRef
  | [] => []
  | r :: rs => if r.id = eid then ref :: rs else r :: updateFirstRef eid ref rs

/-- The index update of `add_project_element`: overwrite the existing entry
with the element's id in place, else append a new entry. -/
def upsertRef (els : List (String × List ElementRef)) (elementType eid : String)
    (ref : ElementRef) : List (String × List ElementRef) :=
  let lst := (dictLookup els elementType).getD []
  let lst' := if lst.any (fun r => r.id == eid) then updateFirstRef eid ref lst
              else lst ++ [ref]
  dictInsert els elementType lst'

/-- The element path string returned and indexed by the store. -/
def elementPath (projectId elementType eid : String) : String :=
  "projects/" ++ projectId ++ "/" ++ elementType ++ "/" ++ eid ++ ".json"

/-- Result of `save_element`: the payload-plus-id dict, or the error dict of
`get_project` (directory missing, carrying the listable projects; or
`metadata.json` missing). -/
inductive SaveResult where
  | ok (data : ElemData) (id : String) (outputPath : String)
  | projectNotFound (available : List String)
  | metadataMissing (projectId : String)
deriving DecidableEq, Repr

/-- `save_element` stamps `created_at` on the payload when absent. -/
def ensureCreatedAt (data : ElemData) (now : String) : ElemData :=
  if (dictLookup data "created_at").isSome then data
  else dictInsert data "created_at" now

/-- The reference object `add_project_element` builds for the index
(applied to the stamped payload, which always carries `created_at`). -/
def savedRef (projectId elementType eid : String) (d : ElemData) (now : String) :
    ElementRef :=
  { id := eid
    name := pyOrStr (pyOrStr (payloadGet d "name") (payloadGet d "title")) eid
    path := elementPath projectId elementType eid
    createdAt := (dictLookup d "created_at").getD now }

/-- The file-system state after the effects of a successful `save_element`,
in source order: element file write, reference-index update plus
`modified_at` refresh (`add_project_element`), then the legacy mirror copy
for the pre-project element types. -/
def saveFinalState (fs : StoreFS) (projectId elementType : String) (data : ElemData)
    (eid now : String) (pdir : ProjectDir) (meta : Metadata) : StoreFS :=
  let d := ensureCreatedAt data now
  let meta' : Metadata :=
    { meta with elements := upsertRef meta.elements elementType eid
                  (savedRef projectId elementType eid d now),
                modifiedAt := now }
  let pdir' : ProjectDir :=
    { pdir with elements := dirWrite pdir.elements elementType eid d,
                metadata := some meta' }
  let fsIndexed : StoreFS := { fs with projects := dictInsert fs.projects projectId pdir' }
  if elementType ∈ legacyTypes then
    { fsIndexed with legacy := dirWrite fsIndexed.legacy elementType eid d }
  else fsIndexed

/-- `ProjectManager.save_element`. Order of effects, as in the source:
`get_project` gate first (returning its error dict untouched on failure,
before any write), then the effects collected in `saveFinalState`. A
supplied empty-string id is falsy in Python and is re-derived. -/
def saveElement (fs : StoreFS) (projectId elementType : String) (data : ElemData)
    (elementId : Option String) (now : String) : SaveResult × StoreFS :=
  match dictLookup fs.projects projectId with
  | none => (.projectNotFound (availableProjects fs), fs)
  | some pdir =>
    match pdir.metadata with
    | none => (.metadataMissing projectId, fs)
    | some meta =>
      let eid := match elementId with
        | some i => if i = "" then deriveElementId elementType data now else i
        | none => deriveElementId elementType data now
      (.ok (ensureCreatedAt data now) eid (elementPath projectId elementType eid),
       saveFinalState fs projectId elementType data eid now pdir meta)

/-- Result of `get_element`. -/
inductive GetElemResult where
  | ok (data : ElemData) (id : String) (outputPath : String)
  | projectNotFound (available : List String)
  | metadataMissing (projectId : String)
  | elementNotFound (projectId eid : String)
deriving DecidableEq, Repr

/-- `ProjectManager.get_element`: `get_project` gate, then read the element
file and return its payload with `id` and `output_path` added. -/
def getElement (fs : StoreFS) (projectId elementType eid : String) : GetElemResult :=
  match dictLookup fs.projects projectId with
  | none => .projectNotFound (availableProjects fs)
  | some pdir =>
    match pdir.metadata with
    | none => .metadataMissing projectId
    | some _ =>
      match dictLookup ((dictLookup pdir.elements elementType).getD []) eid with
      | none => .elementNotFound projectId eid
      | some d => .ok d eid (elementPath projectId elementType eid)

/-- The number of reference-index entries for an element id in a project's
per-type index list. -/
def refCount (fs : StoreFS) (projectId elementType eid : String) : ℕ :=
  match dictLookup fs.projects projectId with
  | none => 0
  | some pdir =>
    match pdir.metadata with
    | none => 0
    | some meta =>
      ((dictLookup meta.elements elementType).getD []).countP (fun r => r.id == eid)

/-- The state after a `save_element` call (result discarded). -/
def saveElementState (projectId elementType : String) (data : ElemData)
    (elementId : Option String) (now : String) (fs : StoreFS) : StoreFS :=
  (saveElement fs projectId elementType data elementId now).2

/-- The precondition of a well-formed `save_element` target: the project
directory and its `metadata.json` exist, and the reference index holds at
most one entry for the element id (true in particular of any freshly
created project, whose index is empty). -/
def SaveInv (projectId elementType eid : String) (fs : StoreFS) : Prop :=
  (∃ pdir meta, dictLookup fs.projects projectId = some pdir ∧
    pdir.metadata = some meta) ∧
  refCount fs projectId elementType eid ≤ 1

/-! ## Result projections used to state the claims -/

/-- The `matched_stages` list of an analysis outcome (empty on error). -/
def AnalyzeOutcome.matchedList : AnalyzeOutcome → List MatchedStage
  | .ok r => r.matchedStages
  | .notFound _ _ => []

/-- The `missing_stages` list of an analysis outcome (empty on error). -/
def AnalyzeOutcome.missingList : AnalyzeOutcome → List String
  | .ok r => r.missingStages
  | .notFound _ _ => []

/-- Whether `create_custom_pattern` returned the error dict. -/
def CreateOutcome.isError : CreateOutcome → Bool
  | .ok _ _ _ => false
  | .notFound _ _ => true

/-- Created pattern and post-state of a successful `create_custom_pattern`. -/
def CreateOutcome.stored : CreateOutcome → Option (PatternData × PMState)
  | .ok p st _ => some (p, st)
  | .notFound _ _ => none

/-- Whether `create_hybrid_pattern` returned the lookup error dict. -/
def HybridOutcome.isError : HybridOutcome → Bool
  | .ok _ _ _ => false
  | .notFound _ _ => true
  | .divByZero => true

/-- Created pattern and post-state of a successful `create_hybrid_pattern`. -/
def HybridOutcome.stored : HybridOutcome → Option (PatternData × PMState)
  | .ok p st _ => some (p, st)
  | .notFound _ _ => none
  | .divByZero => none

/-- Length of the synthesized stage list of a successful hybrid creation. -/
def HybridOutcome.stagesLen : HybridOutcome → Option ℕ
  | .ok p _ _ => some p.stages.length
  | .notFound _ _ => none
  | .divByZero => none

/-- The number of stages `create_hybrid_pattern` takes from one component:
`num_stages = max(1, round(weight * target))` capped by taking all stages
when it reaches the component's stage count. -/
def hybridContribution (target : ℕ) (p : PatternData) (w : ℚ) : ℕ :=
  let n : ℤ := max 1 (pyRound (w * (target : ℚ)))
  if (p.stages.length : ℤ) ≤ n then p.stages.length else n.toNat

/-- Decidable equality for `Except`, used to evaluate resolution and
sampling results on concrete inputs. -/
instance {ε α : Type} [DecidableEq ε] [DecidableEq α] : DecidableEq (Except ε α)
  | .error e, .error f => decidable_of_iff (e = f) (by simp)
  | .error _, .ok _ => isFalse (by simp)
  | .ok _, .error _ => isFalse (by simp)
  | .ok x, .ok y => decidable_of_iff (x = y) (by simp)

/-! ## Concrete fixtures (taken from the repository's own test script) -/

/-- The custom test pattern of `tests/test_analyze_narrative.py`
(stored under the id `transcendent_evolution`). -/
def transcendentOutcome : CreateOutcome :=
  createCustomPattern defaultPMState "Transcendent Evolution" "A test pattern"
    [ "Biological Limitation", "Transition Crisis", "Virtual Awakening",
      "Identity Fragmentation", "Connection Seeking", "Existential Purpose",
      "Integration", "Transcendence" ] none none none "t0"

/-- Manager state after creating the test pattern. -/
def transcendentState : PMState :=
  match transcendentOutcome with
  | .ok _ st _ => st
  | _ => defaultPMState

/-- The first test scene of `tests/test_analyze_narrative.py`: the stage
name appears in (and equals) `pattern_stage`, while `title` and
`description` are absent. -/
def diagnosisScene : Scene :=
  { title := none
    sceneTitle := some "Terminal Diagnosis"
    description := none
    patternStage := some "Biological Limitation"
    conflict := some "Elara confronts her mortality and the limitations of her biological form"
    goal := none
    outcome := none
    notes := none }

/-- A one-project store used as a concrete element-store input. -/
def witMeta : Metadata := { name := "Proj", elements := [], modifiedAt := "t0" }

/-- The project directory of `witFS`. -/
def witDir : ProjectDir := { metadata := some witMeta, elements := [] }

/-- A store holding the single project `proj` with an empty index. -/
def witFS : StoreFS := { projects := [("proj", witDir)], legacy := [] }

/-- A concrete element payload. -/
def witData : ElemData := [("name", "Alice"), ("role", "hero")]

/-! ## Helper lemmas -/

theorem dictLookup_dictInsert_self {α : Type} (d : List (String × α)) (k : String) (v : α) :
    dictLookup (dictInsert d k v) k = some v := by
  unfold dictInsert
  by_cases hs : containsKey d k
  · rw [if_pos hs]
    induction d with
    | nil => simp [containsKey] at hs
    | cons a d ih =>
      by_cases h : a.1 = k
      · simp [dictLookup, h]
      · simp only [containsKey, List.any_cons, decide_eq_false h, Bool.false_or] at hs
        simp only [List.map_cons, dictLookup, h, if_false, ite_false]
        exact ih hs
  · rw [if_neg hs]
    induction d with
    | nil => simp [dictLookup]
    | cons a d ih =>
      by_cases h : a.1 = k
      · exact absurd (by simp [containsKey, h]) hs
      · simp only [containsKey, List.any_cons, decide_eq_false h, Bool.false_or] at hs
        simp only [List.cons_append, dictLookup, h, if_false, ite_false]
        exact ih hs

theorem filterMap_length_add_filter_isNone_length {α β : Type} (f : α → Option β)
    (l : List α) :
    (l.filterMap f).length + (l.filter (fun a => (f a).isNone)).length = l.length := by
  induction l with
  | nil => simp
  | cons a l ih =>
    cases h : f a with
    | none => simp [List.filterMap_cons, List.filter_cons, h]; omega
    | some b => simp [List.filterMap_cons, List.filter_cons, h]; omega

theorem matchStage_nil (adherenceLevel : ℚ) (stage : String) :
    matchStage [] adherenceLevel stage = none := by
  simp [matchStage, bestPartialMatch]

theorem getPatternDetails_unknown (st : PMState) (n : String)
    (hd : dictLookup st.disk (pyToLower n) = none)
    (hm : dictLookup st.mem (pyToLower n) = none) :
    getPatternDetails st n = .notFound (patternNotFoundMsg n) (st.mem.map (·.1)) := by
  unfold getPatternDetails
  rw [hd, hm]

theorem getPatternDetails_notFound_avail (st : PMState) (n m : String) (a : List String)
    (h : getPatternDetails st n = .notFound m a) : a = st.mem.map (·.1) := by
  unfold getPatternDetails at h
  cases hd : dictLookup st.disk (pyToLower n) with
  | some p => rw [hd] at h; exact absurd h (by simp)
  | none =>
    rw [hd] at h
    cases hm : dictLookup st.mem (pyToLower n) with
    | some p => rw [hm] at h; exact absurd h (by simp)
    | none => rw [hm] at h; injection h with h1 h2; exact h2.symm

theorem resolvePatterns_unknown_mem (st : PMState) (l : List (String × ℚ)) (n : String)
    (w : ℚ) (hd : dictLookup st.disk (pyToLower n) = none)
    (hm : dictLookup st.mem (pyToLower n) = none) (hmem : (n, w) ∈ l) :
    ∃ msg, resolvePatterns st l = .error (msg, st.mem.map (·.1)) := by
  induction l with
  | nil => simp at hmem
  | cons x rest ih =>
    obtain ⟨m, q⟩ := x
    rcases List.mem_cons.mp hmem with heq | hrest
    · injection heq with h1 h2
      subst h1
      unfold resolvePatterns
      rw [getPatternDetails_unknown st n hd hm]
      exact ⟨patternNotFoundMsg n, rfl⟩
    · unfold resolvePatterns
      cases hg : getPatternDetails st m with
      | notFound m' a' =>
        obtain rfl := getPatternDetails_notFound_avail st m m' a' hg
        exact ⟨m', rfl⟩
      | found p =>
        obtain ⟨msg, hmsg⟩ := ih hrest
        rw [hmsg]
        exact ⟨msg, rfl⟩

theorem insertWeightDesc_perm (x : String × PatternData × ℚ)
    (l : List (String × PatternData × ℚ)) : (insertWeightDesc x l).Perm (x :: l) := by
  induction l with
  | nil => exact List.Perm.refl _
  | cons y ys ih =>
    unfold insertWeightDesc
    by_cases h : y.2.2 ≤ x.2.2
    · rw [if_pos h]
    · rw [if_neg h]
      exact (ih.cons y).trans (List.Perm.swap x y ys)

theorem sortByWeightDesc_perm (l : List (String × PatternData × ℚ)) :
    (sortByWeightDesc l).Perm l := by
  induction l with
  | nil => exact List.Perm.refl _
  | cons x xs ih =>
    unfold sortByWeightDesc
    rw [List.foldr_cons]
    exact (insertWeightDesc_perm x _).trans (ih.cons x)

theorem sampleStages_ok_length (l : List (String × PatternData × ℚ)) (target : ℕ)
    (out : List String) (h : sampleStages l target = .ok out) :
    out.length = (l.map (fun t => hybridContribution target t.2.1 t.2.2)).sum := by
  induction l generalizing out with
  | nil =>
    simp only [sampleStages] at h
    injection h with h1
    subst h1
    simp
  | cons x rest ih =>
    obtain ⟨nm, p, w⟩ := x
    simp only [sampleStages] at h
    split at h
    · exact absurd h (by simp)
    · exact absurd h (by simp)
    next c r hc hr =>
      injection h with h1
      subst h1
      rw [List.map_cons, List.sum_cons, List.length_append, ih r hr]
      congr 1
      unfold hybridContribution
      split at hc
      next hle =>
        injection hc with h2
        subst h2
        rw [if_pos hle]
      next hgt =>
        split at hc
        · exact absurd hc (by simp)
        next hne =>
          injection hc with h2
          subst h2
          rw [if_neg hgt]
          simp


theorem filterMap_matchStage_nil (adh : ℚ) (l : List String) :
    l.filterMap (matchStage [] adh) = [] := by
  induction l with
  | nil => rfl
  | cons a l ih => simp [List.filterMap_cons, matchStage_nil, ih]

theorem filter_matchStage_nil (adh : ℚ) (l : List String) :
    (l.filter fun s => (matchStage [] adh s).isNone) = l := by
  induction l with
  | nil => rfl
  | cons a l ih => simp [List.filter_cons, matchStage_nil, ih]

/-- C3: the claim says `create_hybrid_pattern` always completes over existing
patterns; the code instead raises `ZeroDivisionError` whenever a component's
`num_stages` rounds to 1 while that component has more than one stage
(here: transformation, weight 0.05, target 12, `round(0.6) = 1 < 7`). -/
theorem createHybridPattern_divByZero :
    createHybridPattern defaultPMState "Broken Hybrid" "d"
      [("heroes_journey", 9/10), ("transformation", 1/20)] none "t" = .divByZero := by
  decide

/-- C1: adherence levels 1.0 and 0.5 produce different `matched_stages` on the
same scenes and pattern: the keyword fallback pass only runs when
`adherence_level < 1.0`, so matching is not decoupled from adherence on the
half-open interval (0, 1]. -/
theorem adherence_changes_matched_stages :
    (analyzeNarrative defaultPMState
      [⟨some "Opening", none, some "We see the status of the town",
        none, none, none, none, none⟩] "transformation" 1 "t").matchedList = [] ∧
    (analyzeNarrative defaultPMState
      [⟨some "Opening", none, some "We see the status of the town",
        none, none, none, none, none⟩] "transformation" (1/2) "t").matchedList =
      [⟨"Status Quo", "Opening", "partial", some 1⟩] ∧
    (analyzeNarrative defaultPMState
      [⟨some "Opening", none, some "We see the status of the town",
        none, none, none, none, none⟩] "transformation" 1 "t").matchedList ≠
    (analyzeNarrative defaultPMState
      [⟨some "Opening", none, some "We see the status of the town",
        none, none, none, none, none⟩] "transformation" (1/2) "t").matchedList := by
  refine ⟨by decide, by decide, by decide⟩

/-- C8: on an empty scene list every stage of the pattern is missing, no stage
is matched, and the match score is 0; concretely, the Hero's Journey yields
12 missing stages. -/
theorem analyzeNarrative_empty_scenes (st : PMState) (patternName : String)
    (adh : ℚ) (now : String) (p : PatternData)
    (hp : getPatternDetails st patternName = .found p) :
    analyzeNarrative st [] patternName adh now =
      .ok ⟨patternName, adh, max 1 (pyRound ((p.stages.length : ℚ) * adh)),
           [], p.stages, 0, now⟩ ∧
    (analyzeNarrative defaultPMState [] "heroes_journey" 1 "t").missingList.length = 12 := by
  constructor
  · simp only [analyzeNarrative]
    rw [hp]
    simp [filterMap_matchStage_nil, filter_matchStage_nil]
  · decide

/-- C5: for every successful analysis, matched plus missing stages partition
the pattern's stages, the required stage count is `max(1, round(len * adherence))`
(hence at least 1), and the match score is exactly `matched / required`. -/
theorem analysisResult_invariants (st : PMState) (scenes : List Scene)
    (patternName : String) (adh : ℚ) (now : String) (p : PatternData)
    (r : AnalysisResult) (hp : getPatternDetails st patternName = .found p)
    (hr : analyzeNarrative st scenes patternName adh now = .ok r) :
    r.matchedStages.length + r.missingStages.length = p.stages.length ∧
    r.requiredStages = max 1 (pyRound ((p.stages.length : ℚ) * adh)) ∧
    1 ≤ r.requiredStages ∧
    r.matchScore = (r.matchedStages.length : ℚ) / (r.requiredStages : ℚ) := by
  simp only [analyzeNarrative] at hr
  rw [hp] at hr
  injection hr with hr
  subst hr
  refine ⟨filterMap_length_add_filter_isNone_length _ _, rfl, le_max_left _ _, ?_⟩
  rw [if_pos (lt_of_lt_of_le zero_lt_one (le_max_left 1 _))]

/-- C6: a pattern name unknown to both the library directory and the
in-memory defaults makes `get_pattern_details`, `analyze_narrative`,
`create_custom_pattern` (via `based_on`) and `create_hybrid_pattern` all
return the structured not-found result carrying the list of valid pattern
ids, with no exception. -/
theorem unknown_pattern_not_found (st : PMState) (n : String)
    (hd : dictLookup st.disk (pyToLower n) = none)
    (hm : dictLookup st.mem (pyToLower n) = none)
    (hne : n ≠ "")
    (scenes : List Scene) (adh : ℚ) (now : String)
    (cname cdesc : String) (cstages : List String) (pf ex : Option (List String))
    (wmap : List (String × ℚ)) (w : ℚ) (hw : (n, w) ∈ wmap) :
    getPatternDetails st n = .notFound (patternNotFoundMsg n) (st.mem.map (·.1)) ∧
    analyzeNarrative st scenes n adh now =
      .notFound (patternNotFoundMsg n) (st.mem.map (·.1)) ∧
    createCustomPattern st cname cdesc cstages pf ex (some n) now =
      .notFound (patternNotFoundMsg n) (st.mem.map (·.1)) ∧
    ∃ msg, createHybridPattern st cname cdesc wmap none now =
      .notFound msg (st.mem.map (·.1)) := by
  have hg := getPatternDetails_unknown st n hd hm
  refine ⟨hg, ?_, ?_, ?_⟩
  · simp only [analyzeNarrative]
    rw [hg]
  · simp only [createCustomPattern, Option.getD]
    rw [if_pos hne]
    rw [hg]
  · obtain ⟨msg, hmsg⟩ := resolvePatterns_unknown_mem st wmap n w hd hm hw
    refine ⟨msg, ?_⟩
    simp only [createHybridPattern]
    rw [hmsg]

theorem unknown_pattern_not_found_witness :
    getPatternDetails defaultPMState "no_such_pattern" =
      .notFound (patternNotFoundMsg "no_such_pattern")
        ["heroes_journey", "transformation", "voyage_and_return"] ∧
    analyzeNarrative defaultPMState [] "no_such_pattern" 1 "t" =
      .notFound (patternNotFoundMsg "no_such_pattern")
        ["heroes_journey", "transformation", "voyage_and_return"] ∧
    createCustomPattern defaultPMState "New" "D" ["S"] none none
        (some "no_such_pattern") "t" =
      .notFound (patternNotFoundMsg "no_such_pattern")
        ["heroes_journey", "transformation", "voyage_and_return"] ∧
    ∃ msg, createHybridPattern defaultPMState "New" "D"
        [("no_such_pattern", 1/2)] none "t" =
      .notFound msg ["heroes_journey", "transformation", "voyage_and_return"] := by
  exact unknown_pattern_not_found defaultPMState "no_such_pattern"
    (by decide) (by decide) (by decide) [] 1 "t" "New" "D" ["S"] none none
    [("no_such_pattern", 1/2)] (1/2) (by decide)

theorem analyzeNarrative_empty_scenes_witness :
    analyzeNarrative defaultPMState [] "heroes_journey" 1 "t" =
      .ok ⟨"heroes_journey", 1, max 1 (pyRound ((heroesJourney.stages.length : ℚ) * 1)),
           [], heroesJourney.stages, 0, "t"⟩ ∧
    (analyzeNarrative defaultPMState [] "heroes_journey" 1 "t").missingList.length = 12 :=
  analyzeNarrative_empty_scenes defaultPMState "heroes_journey" 1 "t" heroesJourney
    (by decide)

theorem analysisResult_invariants_witness :
    (analyzeNarrative defaultPMState [] "voyage_and_return" (1/2) "t").matchedList.length +
      (analyzeNarrative defaultPMState [] "voyage_and_return" (1/2) "t").missingList.length =
      voyageAndReturn.stages.length := by
  have h := analysisResult_invariants defaultPMState [] "voyage_and_return" (1/2) "t"
    voyageAndReturn
    ⟨"voyage_and_return", 1/2, 2, [], voyageAndReturn.stages, 0, "t"⟩
    (by decide) (by decide)
  have h1 := h.1
  revert h1
  decide


theorem dictLookup_map_overwrite_ne {α : Type} (d : List (String × α)) (k k' : String)
    (v : α) (h : k' ≠ k) :
    dictLookup (d.map fun p => if p.1 = k then (k, v) else p) k' = dictLookup d k' := by
  induction d with
  | nil => rfl
  | cons a d ih =>
    by_cases ha : a.1 = k
    · simp only [List.map_cons, if_pos ha, dictLookup]
      rw [if_neg (Ne.symm h), if_neg (show ¬a.1 = k' by rw [ha]; exact Ne.symm h)]
      exact ih
    · simp only [List.map_cons, if_neg ha, dictLookup]
      by_cases ha' : a.1 = k'
      · rw [if_pos ha', if_pos ha']
      · rw [if_neg ha', if_neg ha']
        exact ih

theorem dictLookup_append_single_ne {α : Type} (d : List (String × α)) (k k' : String)
    (v : α) (h : k' ≠ k) :
    dictLookup (d ++ [(k, v)]) k' = dictLookup d k' := by
  induction d with
  | nil =>
    simp only [List.nil_append, dictLookup]
    rw [if_neg (Ne.symm h)]
  | cons a d ih =>
    simp only [List.cons_append, dictLookup]
    by_cases ha : a.1 = k'
    · rw [if_pos ha, if_pos ha]
    · rw [if_neg ha, if_neg ha]
      exact ih

theorem dictLookup_dictInsert_ne {α : Type} (d : List (String × α)) (k k' : String)
    (v : α) (h : k' ≠ k) :
    dictLookup (dictInsert d k v) k' = dictLookup d k' := by
  unfold dictInsert
  split
  · exact dictLookup_map_overwrite_ne d k k' v h
  · exact dictLookup_append_single_ne d k k' v h

theorem countP_updateFirstRef (l : List ElementRef) (eid : String) (ref : ElementRef)
    (hrid : ref.id = eid) :
    (updateFirstRef eid ref l).countP (fun r => r.id == eid) =
      l.countP (fun r => r.id == eid) := by
  induction l with
  | nil => rfl
  | cons r rs ih =>
    unfold updateFirstRef
    by_cases h : r.id = eid
    · rw [if_pos h]
      simp [List.countP_cons, h, hrid]
    · rw [if_neg h]
      simp [List.countP_cons, h, ih]

theorem saveFinalState_projects (fs : StoreFS) (pid etype : String) (data : ElemData)
    (eid now : String) (pdir : ProjectDir) (meta : Metadata) :
    (saveFinalState fs pid etype data eid now pdir meta).projects =
      dictInsert fs.projects pid
        { pdir with elements := dirWrite pdir.elements etype eid (ensureCreatedAt data now),
                    metadata := some { meta with
                      elements := upsertRef meta.elements etype eid
                        (savedRef pid etype eid (ensureCreatedAt data now) now),
                      modifiedAt := now } } := by
  simp only [saveFinalState]
  split <;> rfl

theorem refCount_saveFinalState (fs : StoreFS) (pid etype : String) (data : ElemData)
    (eid now : String) (pdir : ProjectDir) (meta : Metadata) :
    refCount (saveFinalState fs pid etype data eid now pdir meta) pid etype eid =
      (if ((dictLookup meta.elements etype).getD []).any (fun r => r.id == eid) then
        ((dictLookup meta.elements etype).getD []).countP (fun r => r.id == eid)
      else ((dictLookup meta.elements etype).getD []).countP (fun r => r.id == eid) + 1) := by
  unfold refCount
  rw [saveFinalState_projects, dictLookup_dictInsert_self]
  dsimp only
  unfold upsertRef
  rw [dictLookup_dictInsert_self]
  simp only [Option.getD_some]
  by_cases hany : ((dictLookup meta.elements etype).getD []).any (fun r => r.id == eid)
  · rw [if_pos hany, if_pos hany]
    exact countP_updateFirstRef _ eid _ rfl
  · rw [if_neg hany, if_neg hany, List.countP_append]
    simp [savedRef, List.countP_cons]

theorem getElement_saveFinalState (fs : StoreFS) (pid etype : String) (data : ElemData)
    (eid now : String) (pdir : ProjectDir) (meta : Metadata) :
    getElement (saveFinalState fs pid etype data eid now pdir meta) pid etype eid =
      .ok (ensureCreatedAt data now) eid (elementPath pid etype eid) := by
  unfold getElement
  rw [saveFinalState_projects, dictLookup_dictInsert_self]
  dsimp only
  unfold dirWrite
  rw [dictLookup_dictInsert_self]
  dsimp only [Option.getD]
  rw [dictLookup_dictInsert_self]

theorem saveElementState_eq (fs : StoreFS) (pid etype : String) (data : ElemData)
    (eid now : String) (pdir : ProjectDir) (meta : Metadata)
    (hp : dictLookup fs.projects pid = some pdir)
    (hm : pdir.metadata = some meta) (hne : eid ≠ "") :
    saveElementState pid etype data (some eid) now fs =
      saveFinalState fs pid etype data eid now pdir meta := by
  simp only [saveElementState, saveElement, hp, hm]
  rw [if_neg hne]

theorem saveElement_step (pid etype eid : String) (data : ElemData) (now : String)
    (fs : StoreFS) (hne : eid ≠ "") (hinv : SaveInv pid etype eid fs) :
    SaveInv pid etype eid (saveElementState pid etype data (some eid) now fs) ∧
    refCount (saveElementState pid etype data (some eid) now fs) pid etype eid = 1 ∧
    getElement (saveElementState pid etype data (some eid) now fs) pid etype eid =
      .ok (ensureCreatedAt data now) eid (elementPath pid etype eid) := by
  obtain ⟨⟨pdir, meta, hp, hm⟩, hcnt⟩ := hinv
  have hbefore : refCount fs pid etype eid =
      ((dictLookup meta.elements etype).getD []).countP (fun r => r.id == eid) := by
    simp only [refCount, hp, hm]
  rw [saveElementState_eq fs pid etype data eid now pdir meta hp hm hne]
  have hone : refCount (saveFinalState fs pid etype data eid now pdir meta) pid etype eid = 1 := by
    rw [refCount_saveFinalState]
    by_cases hany : ((dictLookup meta.elements etype).getD []).any (fun r => r.id == eid)
    · rw [if_pos hany]
      have hpos : 0 < ((dictLookup meta.elements etype).getD []).countP (fun r => r.id == eid) := by
        rw [List.countP_pos_iff]
        obtain ⟨a, ha, hpa⟩ := List.any_eq_true.mp hany
        exact ⟨a, ha, hpa⟩
      rw [hbefore] at hcnt
      omega
    · rw [if_neg hany]
      have hzero : ((dictLookup meta.elements etype).getD []).countP (fun r => r.id == eid) = 0 :=
        List.countP_eq_zero.mpr (List.any_eq_false.mp (Bool.eq_false_iff.mpr hany))
      omega
  refine ⟨⟨⟨{ pdir with
        elements := dirWrite pdir.elements etype eid (ensureCreatedAt data now),
        metadata := some { meta with
          elements := upsertRef meta.elements etype eid
            (savedRef pid etype eid (ensureCreatedAt data now) now),
          modifiedAt := now } },
      { meta with
        elements := upsertRef meta.elements etype eid
          (savedRef pid etype eid (ensureCreatedAt data now) now),
        modifiedAt := now }, ?_, rfl⟩, le_of_eq hone⟩, hone,
    getElement_saveFinalState fs pid etype data eid now pdir meta⟩
  rw [saveFinalState_projects]
  exact dictLookup_dictInsert_self _ _ _


/-- C2: the committed exact pass inspects only `title` and `description`.
The repository's own test scene carries the stage name in `pattern_stage`
(equal to the stage, and a substring of the concatenated text fields), yet
the stage is reported missing rather than exactly matched. -/
theorem pattern_stage_not_exact_matched :
    diagnosisScene.patternStage = some "Biological Limitation" ∧
    (analyzeNarrative transcendentState [diagnosisScene]
      "transcendent_evolution" 1 "t").matchedList = [] ∧
    "Biological Limitation" ∈ (analyzeNarrative transcendentState [diagnosisScene]
      "transcendent_evolution" 1 "t").missingList := by
  refine ⟨rfl, by decide, by decide⟩

/-- C4 counterexample: with the three default patterns at weights
0.29 / 0.29 / 0.42 the synthesized stage list has 11 stages, not
`min(12, 12 + 7 + 5) = 12`: rounded per-component counts need not sum to
the target. -/
theorem hybrid_length_not_min_counterexample :
    (createHybridPattern defaultPMState "Uneven Mix" "d"
      [("heroes_journey", 29/100), ("transformation", 29/100),
       ("voyage_and_return", 21/50)] none "t").stagesLen = some 11 ∧
    heroesJourney.stages.length + transformationPattern.stages.length +
      voyageAndReturn.stages.length = 24 ∧
    (11 : ℕ) ≠ min 12 24 := by
  refine ⟨by decide, by decide, by decide⟩

/-- C4 (amended): without custom stages, over resolvable components and
whenever stage sampling does not hit the division-by-zero defect, the
synthesized stage list has length `min(target, Σ contributions)` with
`target = min(12, Σ stage counts)` and each component contributing
`max(1, round(weight * target))` stages, capped at its own stage count.
For the spec's example weights 0.7/0.3 this equals `min(12, 19) = 12`. -/
theorem hybrid_length_formula (st : PMState) (name description : String)
    (patterns : List (String × ℚ)) (now : String)
    (resolved : List (String × PatternData × ℚ)) (out : List String)
    (hres : resolvePatterns st patterns = .ok resolved)
    (hsam : sampleStages (sortByWeightDesc resolved)
      (min 12 ((resolved.map (fun t => t.2.1.stages.length)).sum)) = .ok out) :
    (createHybridPattern st name description patterns none now).stagesLen =
      some (min (min 12 ((resolved.map (fun t => t.2.1.stages.length)).sum))
        ((resolved.map (fun t => hybridContribution
          (min 12 ((resolved.map (fun s => s.2.1.stages.length)).sum))
          t.2.1 t.2.2)).sum)) := by
  have hperm := sortByWeightDesc_perm resolved
  have hsums : ((sortByWeightDesc resolved).map (fun t => t.2.1.stages.length)).sum
      = (resolved.map (fun t => t.2.1.stages.length)).sum := (hperm.map _).sum_eq
  simp only [createHybridPattern, hres]
  rw [hsums, hsam]
  dsimp only [HybridOutcome.stagesLen, Except.map]
  rw [List.length_take, sampleStages_ok_length _ _ _ hsam, (hperm.map _).sum_eq]

theorem hybrid_length_formula_witness :
    (createHybridPattern defaultPMState "Spec Mix" "d"
      [("heroes_journey", 7/10), ("transformation", 3/10)] none "t").stagesLen =
      some 12 := by
  have h := hybrid_length_formula defaultPMState "Spec Mix" "d"
    [("heroes_journey", 7/10), ("transformation", 3/10)] "t"
    [("heroes_journey", heroesJourney, 7/10), ("transformation", transformationPattern, 3/10)]
    [ "Ordinary World", "Call to Adventure", "Meeting the Mentor",
      "Crossing the Threshold", "Approach to the Inmost Cave", "Ordeal",
      "The Road Back", "Return with the Elixir",
      "Status Quo", "Resistance", "Discovery", "New Normal" ]
    (by decide) (by decide)
  exact h.trans (by decide)

/-- C9: `save_element` on a project id with no project directory returns the
project-not-found result (carrying the listable projects) and leaves the
store completely unchanged: no element file, no legacy mirror write, no
index change. -/
theorem saveElement_unknown_project (fs : StoreFS) (pid etype : String)
    (data : ElemData) (elementId : Option String) (now : String)
    (h : dictLookup fs.projects pid = none) :
    saveElement fs pid etype data elementId now =
      (.projectNotFound (availableProjects fs), fs) := by
  unfold saveElement
  rw [h]

theorem saveElement_unknown_project_witness :
    saveElement witFS "ghost" "characters" witData (some "alice") "t1" =
      (.projectNotFound ["proj"], witFS) := by
  have h := saveElement_unknown_project witFS "ghost" "characters" witData
    (some "alice") "t1" (by decide)
  exact h.trans (by decide)

/-- C7: on an existing project with metadata, `save_element` followed by
`get_element` with the same ids returns the saved payload (unchanged on
every key other than the `created_at` stamp added when absent) plus the id
and path; and after any number of repeated saves of the same
`(project, type, id)` the reference index holds exactly one entry for that
id (insert if absent, else overwrite in place). -/
theorem saveElement_roundtrip_and_index (fs : StoreFS) (pid etype : String)
    (data : ElemData) (eid now : String) (pdir : ProjectDir) (meta : Metadata)
    (hp : dictLookup fs.projects pid = some pdir)
    (hm : pdir.metadata = some meta)
    (hne : eid ≠ "")
    (hcnt : refCount fs pid etype eid ≤ 1) :
    getElement (saveElementState pid etype data (some eid) now fs) pid etype eid =
      .ok (ensureCreatedAt data now) eid (elementPath pid etype eid) ∧
    (∀ k, k ≠ "created_at" →
      dictLookup (ensureCreatedAt data now) k = dictLookup data k) ∧
    refCount (saveElementState pid etype data (some eid) now fs) pid etype eid = 1 ∧
    ∀ n : ℕ, refCount ((saveElementState pid etype data (some eid) now)^[n + 1] fs)
      pid etype eid = 1 := by
  have hinv : SaveInv pid etype eid fs := ⟨⟨pdir, meta, hp, hm⟩, hcnt⟩
  have key : ∀ n : ℕ,
      SaveInv pid etype eid ((saveElementState pid etype data (some eid) now)^[n] fs) := by
    intro n
    induction n with
    | zero => simpa using hinv
    | succ k ih =>
      rw [Function.iterate_succ_apply']
      exact (saveElement_step pid etype eid data now _ hne ih).1
  obtain ⟨h1, h2, h3⟩ := saveElement_step pid etype eid data now fs hne hinv
  refine ⟨h3, ?_, h2, fun n => ?_⟩
  · intro k hk
    unfold ensureCreatedAt
    split
    · rfl
    · exact dictLookup_dictInsert_ne data "created_at" k now hk
  · rw [Function.iterate_succ_apply']
    exact (saveElement_step pid etype eid data now _ hne (key n)).2.1

theorem saveElement_roundtrip_and_index_witness :
    getElement (saveElementState "proj" "characters" witData (some "alice") "t1" witFS)
      "proj" "characters" "alice" =
      .ok [("name", "Alice"), ("role", "hero"), ("created_at", "t1")] "alice"
        "projects/proj/characters/alice.json" ∧
    refCount (saveElementState "proj" "characters" witData (some "alice") "t1" witFS)
      "proj" "characters" "alice" = 1 ∧
    refCount ((saveElementState "proj" "characters" witData (some "alice") "t1")^[3] witFS)
      "proj" "characters" "alice" = 1 := by
  have h := saveElement_roundtrip_and_index witFS "proj" "characters" witData
    "alice" "t1" witDir witMeta (by decide) rfl (by decide) (by decide)
  exact ⟨h.1.trans (by decide), h.2.2.1, h.2.2.2 2⟩

/-- C10: both creation operations write the pattern file and the in-memory
cache entry at the id derived from the name (lowercased, spaces and hyphens
to underscores) unconditionally: an existing pattern at that id — including
a seeded default — is silently replaced, with no error and no new id. -/
theorem createPattern_overwrites_derived_id (st : PMState)
    (name description : String) (stages : List String)
    (pf ex : Option (List String)) (now : String)
    (st2 : PMState) (hname hdesc : String) (wmap : List (String × ℚ))
    (cs : List String) (resolved : List (String × PatternData × ℚ)) (now2 : String)
    (st3 : PMState) (cname2 cdesc2 : String) (cstages2 : List String)
    (pf2 ex2 : Option (List String)) (bname : String) (base : PatternData)
    (now3 : String)
    (hres : resolvePatterns st2 wmap = .ok resolved) (hcs : cs ≠ [])
    (hbase : getPatternDetails st3 bname = .found base) :
    createCustomPattern st name description stages pf ex none now =
      .ok ⟨name, description, stages, pf.getD [], ex.getD [], false, [], now⟩
        ⟨dictInsert st.disk (sanitizePatternId name)
           ⟨name, description, stages, pf.getD [], ex.getD [], false, [], now⟩,
         dictInsert st.mem (sanitizePatternId name)
           ⟨name, description, stages, pf.getD [], ex.getD [], false, [], now⟩⟩
        ("library/patterns/" ++ sanitizePatternId name ++ ".json") ∧
    dictLookup (dictInsert st.disk (sanitizePatternId name)
        ⟨name, description, stages, pf.getD [], ex.getD [], false, [], now⟩)
      (sanitizePatternId name) =
      some ⟨name, description, stages, pf.getD [], ex.getD [], false, [], now⟩ ∧
    dictLookup (dictInsert st.mem (sanitizePatternId name)
        ⟨name, description, stages, pf.getD [], ex.getD [], false, [], now⟩)
      (sanitizePatternId name) =
      some ⟨name, description, stages, pf.getD [], ex.getD [], false, [], now⟩ ∧
    (createHybridPattern st2 hname hdesc wmap (some cs) now2).isError = false ∧
    ((createHybridPattern st2 hname hdesc wmap (some cs) now2).stored.map
        (fun q => dictLookup q.2.disk (sanitizePatternId hname))) =
      ((createHybridPattern st2 hname hdesc wmap (some cs) now2).stored.map
        (fun q => some q.1)) ∧
    ((createHybridPattern st2 hname hdesc wmap (some cs) now2).stored.map
        (fun q => dictLookup q.2.mem (sanitizePatternId hname))) =
      ((createHybridPattern st2 hname hdesc wmap (some cs) now2).stored.map
        (fun q => some q.1)) ∧
    ((createHybridPattern st2 hname hdesc wmap (some cs) now2).stored.map
        (fun q => q.1.stages)) =
      ((createHybridPattern st2 hname hdesc wmap (some cs) now2).stored.map
        (fun _ => cs)) ∧
    (createCustomPattern st3 cname2 cdesc2 cstages2 pf2 ex2 (some bname) now3).isError
      = false ∧
    ((createCustomPattern st3 cname2 cdesc2 cstages2 pf2 ex2 (some bname) now3).stored.map
        (fun q => dictLookup q.2.disk (sanitizePatternId cname2))) =
      ((createCustomPattern st3 cname2 cdesc2 cstages2 pf2 ex2 (some bname) now3).stored.map
        (fun q => some q.1)) ∧
    ((createCustomPattern st3 cname2 cdesc2 cstages2 pf2 ex2 (some bname) now3).stored.map
        (fun q => dictLookup q.2.mem (sanitizePatternId cname2))) =
      ((createCustomPattern st3 cname2 cdesc2 cstages2 pf2 ex2 (some bname) now3).stored.map
        (fun q => some q.1)) := by
  have hemp : cs.isEmpty = false := by
    cases cs with
    | nil => exact absurd rfl hcs
    | cons a l => rfl
  have hh : ∃ hp' st',
      createHybridPattern st2 hname hdesc wmap (some cs) now2 =
        .ok hp' st' ("library/patterns/" ++ sanitizePatternId hname ++ ".json") ∧
      hp'.stages = cs ∧
      st'.disk = dictInsert st2.disk (sanitizePatternId hname) hp' ∧
      st'.mem = dictInsert st2.mem (sanitizePatternId hname) hp' := by
    simp only [createHybridPattern, hres, hemp, Bool.false_eq_true, if_false, ite_false]
    exact ⟨_, _, rfl, rfl, rfl, rfl⟩
  obtain ⟨hp', sth, hheq, hhst, hhdisk, hhmem⟩ := hh
  have hc : ∃ p' st',
      createCustomPattern st3 cname2 cdesc2 cstages2 pf2 ex2 (some bname) now3 =
        .ok p' st' ("library/patterns/" ++ sanitizePatternId cname2 ++ ".json") ∧
      st'.disk = dictInsert st3.disk (sanitizePatternId cname2) p' ∧
      st'.mem = dictInsert st3.mem (sanitizePatternId cname2) p' := by
    by_cases hb : bname = ""
    · subst hb
      simp only [createCustomPattern, Option.getD]
      rw [if_neg (by simp)]
      exact ⟨_, _, rfl, rfl, rfl⟩
    · simp only [createCustomPattern, Option.getD]
      rw [if_pos hb, hbase]
      exact ⟨_, _, rfl, rfl, rfl⟩
  obtain ⟨p', stc, hceq, hcdisk, hcmem⟩ := hc
  refine ⟨rfl, dictLookup_dictInsert_self _ _ _, dictLookup_dictInsert_self _ _ _,
    ?_, ?_, ?_, ?_, ?_, ?_, ?_⟩
  · rw [hheq]; rfl
  · rw [hheq]
    simp only [HybridOutcome.stored, Option.map]
    rw [hhdisk, dictLookup_dictInsert_self]
  · rw [hheq]
    simp only [HybridOutcome.stored, Option.map]
    rw [hhmem, dictLookup_dictInsert_self]
  · rw [hheq]
    simp only [HybridOutcome.stored, Option.map]
    rw [hhst]
  · rw [hceq]; rfl
  · rw [hceq]
    simp only [CreateOutcome.stored, Option.map]
    rw [hcdisk, dictLookup_dictInsert_self]
  · rw [hceq]
    simp only [CreateOutcome.stored, Option.map]
    rw [hcmem, dictLookup_dictInsert_self]

theorem createPattern_overwrites_derived_id_witness :
    sanitizePatternId "Heroes Journey" = "heroes_journey" ∧
    dictLookup defaultPMState.disk "heroes_journey" = some heroesJourney ∧
    createCustomPattern defaultPMState "Heroes Journey" "mine" ["Only Stage"]
        none none none "t" =
      .ok ⟨"Heroes Journey", "mine", ["Only Stage"], [], [], false, [], "t"⟩
        ⟨dictInsert defaultPMState.disk (sanitizePatternId "Heroes Journey")
           ⟨"Heroes Journey", "mine", ["Only Stage"], [], [], false, [], "t"⟩,
         dictInsert defaultPMState.mem (sanitizePatternId "Heroes Journey")
           ⟨"Heroes Journey", "mine", ["Only Stage"], [], [], false, [], "t"⟩⟩
        ("library/patterns/" ++ sanitizePatternId "Heroes Journey" ++ ".json") ∧
    dictLookup (dictInsert defaultPMState.disk (sanitizePatternId "Heroes Journey")
        ⟨"Heroes Journey", "mine", ["Only Stage"], [], [], false, [], "t"⟩)
      (sanitizePatternId "Heroes Journey") =
      some ⟨"Heroes Journey", "mine", ["Only Stage"], [], [], false, [], "t"⟩ ∧
    (createHybridPattern defaultPMState "Voyage and Return" "remix"
      [("transformation", 1)] (some ["Stage A"]) "t").isError = false := by
  have h := createPattern_overwrites_derived_id defaultPMState "Heroes Journey"
    "mine" ["Only Stage"] none none "t" defaultPMState "Voyage and Return" "remix"
    [("transformation", 1)] ["Stage A"]
    [("transformation", transformationPattern, 1)] "t"
    defaultPMState "X" "x" ["S"] none none "transformation" transformationPattern "t"
    (by decide) (by decide) (by decide)
  exact ⟨by decide, by decide, h.1, h.2.1, h.2.2.2.1⟩

end AIWW
